import Mathlib

/-!
Verification of the core git-integration engine of vscode-gitlens, shallowly
embedded in Lean: sentinel/identity utilities (sha classification, short form,
path splitting), the command executor (argument construction, single-flight
deduplication keyed on cwd+args, expected-warning error classification), and
the repository context tracker (an event-driven state machine deriving the
tracked/dirty/blameable flags).

Strings are modelled as Lean `String` (a list of characters); the JavaScript
regexes are translated into decidable predicates over the character list, with
the regex languages encoded by explicit prefix/suffix decompositions.
-/

set_option maxRecDepth 8192

namespace Git

/-- One lowercase hex digit: the character class `[0-9a-f]` of `Git.shaRegex`. -/
def isHexLower (c : Char) : Bool :=
  (('0' ≤ c) && (c ≤ '9')) || (('a' ≤ c) && (c ≤ 'f'))

/-- The optional caret group `(\^[0-9]*?)??` shared by all three sha regexes:
either empty, or a `^` followed by any number of decimal digits.  (Laziness of
the quantifiers does not change which strings the anchored regex accepts.) -/
def caretDigits (l : List Char) : Bool :=
  match l with
  | [] => true
  | c :: ds => (c == '^') && ds.all Char.isDigit

/-- The tail of `Git.shaRegex` after the 40 hex digits: `(\^[0-9]*?)??( -)?$`,
i.e. an optional caret group optionally followed by the two characters " -". -/
def shaTail (l : List Char) : Bool :=
  caretDigits l ||
    (decide (2 ≤ l.length) && decide (l.drop (l.length - 2) = [' ', '-']) &&
      caretDigits (l.take (l.length - 2)))

/-- The tail of `Git.stagedUncommittedRegex` after the 40 zeros:
`(\^[0-9]*?)??:$`, i.e. an optional caret group followed by a mandatory colon. -/
def stagedTail (l : List Char) : Bool :=
  decide (1 ≤ l.length) && decide (l.drop (l.length - 1) = [':']) &&
    caretDigits (l.take (l.length - 1))

/-- The tail of `Git.uncommittedRegex` after the 40 zeros: `(\^[0-9]*?)??:??$`,
i.e. an optional caret group followed by an optional colon. -/
def uncommittedTail (l : List Char) : Bool :=
  caretDigits l || stagedTail l

/-- `Git.isSha`: test against `Git.shaRegex = /^[0-9a-f]{40}(\^[0-9]*?)??( -)?$/`. -/
def isSha (sha : String) : Bool :=
  decide (40 ≤ sha.data.length) && (sha.data.take 40).all isHexLower &&
    shaTail (sha.data.drop 40)

/-- `Git.isStagedUncommitted`: test against
`Git.stagedUncommittedRegex = /^[0]{40}(\^[0-9]*?)??:$/`. -/
def isStagedUncommitted (sha : String) : Bool :=
  decide (40 ≤ sha.data.length) && (sha.data.take 40).all (· == '0') &&
    stagedTail (sha.data.drop 40)

/-- `Git.isUncommitted`: test against
`Git.uncommittedRegex = /^[0]{40}(\^[0-9]*?)??:??$/`. -/
def isUncommitted (sha : String) : Bool :=
  decide (40 ≤ sha.data.length) && (sha.data.take 40).all (· == '0') &&
    uncommittedTail (sha.data.drop 40)

/-- `Git.stagedUncommittedSha`: 40 zeros followed by a colon. -/
def stagedUncommittedSha : String := "0000000000000000000000000000000000000000:"

/-- `Git.uncommittedSha`: 40 zeros. -/
def uncommittedSha : String := "0000000000000000000000000000000000000000"

/-- `Git.normalizePath`: `fileName.replace(/\\/g, '/')` (the empty string is
falsy in JavaScript and is returned unchanged, which coincides with the map). -/
def normalizePath (fileName : String) : String :=
  ⟨fileName.data.map (fun c => if c == '\\' then '/' else c)⟩

/-- ASCII model of JavaScript `String.prototype.toLowerCase` (paths compared by
the source are ASCII; `Char.toLower` lowers exactly the ASCII uppercase range). -/
def lowerStr (s : String) : String :=
  ⟨s.data.map Char.toLower⟩

/-- JavaScript `String.prototype.startsWith`. -/
def startsWithS (s pre : String) : Bool :=
  pre.data.isPrefixOf s.data

/-- JavaScript `String.prototype.endsWith`. -/
def endsWithS (s suf : String) : Bool :=
  suf.data.isSuffixOf s.data

/-- Model of Node's posix `path.basename` (no extension argument): strip
trailing slashes, then take the last segment. -/
def posixBasename (p : String) : String :=
  let r := p.data.reverse
  let r1 := r.dropWhile (· == '/')
  ⟨(r1.takeWhile (· != '/')).reverse⟩

/-- Model of Node's posix `path.dirname`: everything before the last path
segment, scanning only positions ≥ 1, with Node's root and `//` special cases. -/
def posixDirname (p : String) : String :=
  match p.data with
  | [] => "."
  | c :: rest =>
    let hasRoot := c == '/'
    let r := rest.reverse
    let r1 := r.dropWhile (· == '/')
    let r2 := r1.dropWhile (· != '/')
    match r2 with
    | [] => if hasRoot then "/" else "."
    | _ :: tail =>
      if hasRoot && decide (tail.length = 0) then "//"
      else ⟨(c :: rest).take (1 + tail.length)⟩

/-- The repoPath with a guaranteed trailing slash, as built inside
`Git.splitPath`: `repoPath.endsWith('/') ? repoPath : repoPath + '/'`. -/
def withSlash (s : String) : String :=
  if endsWithS s "/" then s else s ++ "/"

/-- The branch of `Git.splitPath` taken when `repoPath` is falsy (undefined or
empty): derive root=dirname and file=basename when `extract` is set, otherwise
pass the values through `normalizePath` unchanged. -/
def splitPathNoRoot (fileName : String) (repoPath : Option String) (extract : Bool) :
    String × Option String :=
  if extract then
    (normalizePath (posixBasename fileName), some (normalizePath (posixDirname fileName)))
  else
    (normalizePath fileName, repoPath.map normalizePath)

/-- `Git.splitPath(fileName, repoPath, extract = true)`: when a non-empty root
is supplied, both paths are separator-normalized and the root (with a trailing
slash) is stripped case-insensitively from the front of the file name. -/
def splitPath (fileName : String) (repoPath : Option String) (extract : Bool) :
    String × Option String :=
  match repoPath with
  | some rp =>
    if rp = "" then splitPathNoRoot fileName repoPath extract
    else
      let fn := normalizePath fileName
      let rpn := normalizePath rp
      let nrp := lowerStr (withSlash rpn)
      (if startsWithS (lowerStr fn) nrp then ⟨fn.data.drop nrp.data.length⟩ else fn,
        some rpn)
  | none => splitPathNoRoot fileName repoPath extract

/-- `Git.shortenSha`: "index" for the staged-uncommitted sentinel, "" for the
uncommitted sentinel, otherwise the first 8 characters unless a `^` occurs at
an index greater than 6, in which case the first 6 characters are kept and the
whole suffix from the caret onward is preserved (JavaScript `indexOf` returns
-1 when absent, which fails the `index > 6` test). -/
def shortenSha (sha : String) : String :=
  if isStagedUncommitted sha then "index"
  else if isUncommitted sha then ""
  else
    match sha.data.findIdx? (fun c => c == '^') with
    | some i => if 6 < i then ⟨sha.data.take 6 ++ sha.data.drop i⟩ else ⟨sha.data.take 8⟩
    | none => ⟨sha.data.take 8⟩

end Git

/-! ## Command executor -/

/-- The options record of `gitCommand` / `gitCommandCore`.  The environment,
encoding and stdin stream are opaque payloads here: the point (claim about the
dedup key) is that they do not enter the key. -/
structure GitCommandOptions where
  cwd : String
  env : Option (List (String × String))
  encoding : Option String
  stdin : Option String
  willHandleErrors : Bool
deriving DecidableEq

/-- The two safety flags spliced in front of every invocation by
`gitCommandCore`: `-c core.quotepath=false -c color.ui=false`. -/
def gitSafetyArgs : List String :=
  ["-c", "core.quotepath=false", "-c", "color.ui=false"]

/-- The dedup key built by `gitCommandCore`:
the template `(cwd): git ` followed by `args.join(' ')`, after the safety
flags were spliced in.  It depends only on `options.cwd` and the argument list. -/
def commandKey (options : GitCommandOptions) (args : List String) : String :=
  "(" ++ options.cwd ++ "): git " ++ " ".intercalate (gitSafetyArgs ++ args)

/-- State of the module-level `pendingCommands` map plus spawn accounting.
`pending` associates a key with the promise (identified by a number) stored for
it; `spawnCount` counts actual process spawns. -/
structure ExecState where
  pending : List (String × Nat)
  nextId : Nat
  spawnCount : Nat
deriving DecidableEq

/-- `pendingCommands.get(command)`. -/
def lookupPending (st : ExecState) (key : String) : Option Nat :=
  (st.pending.find? (fun kv => kv.1 == key)).map (fun kv => kv.2)

/-- The synchronous head of `gitCommandCore`: look the key up; if absent, spawn
a process, store the new promise under the key and await it; if present, await
the stored promise without spawning.  Returns the promise being awaited. -/
def startCall (st : ExecState) (key : String) : ExecState × Nat :=
  match lookupPending st key with
  | some p => (st, p)
  | none =>
    ({ pending := (key, st.nextId) :: st.pending,
       nextId := st.nextId + 1,
       spawnCount := st.spawnCount + 1 }, st.nextId)

/-- A caller of `gitCommandCore` resuming after `await promise`.  On success
the next statement `pendingCommands.delete(command)` runs; on failure the
`await` re-raises and the delete statement is never reached, so the map keeps
the key. -/
def resumeCall (st : ExecState) (key : String) (success : Bool) : ExecState :=
  if success then { st with pending := st.pending.filter (fun kv => !(kv.1 == key)) }
  else st

/-- Substring search: JavaScript `RegExp.test` for a regex made only of literal
characters (no metacharacters), which matches at any position. -/
def substrTest (pat : List Char) : List Char → Bool
  | [] => pat.isPrefixOf ([] : List Char)
  | c :: rest => pat.isPrefixOf (c :: rest) || substrTest pat rest

/-- From the current position, match `.*?stop`: either `stop` begins here, or
the current character is not a line terminator and the gap continues. -/
def gapMatch (stop : List Char) : List Char → Bool
  | [] => stop.isPrefixOf ([] : List Char)
  | c :: rest => stop.isPrefixOf (c :: rest) || (!(c == '\n' || c == '\r') && gapMatch stop rest)

/-- JavaScript `RegExp.test` for a regex of the shape `pre.*?stop` (the two
`Path '...'` warning patterns): at some position `pre` matches, then after it a
gap of non-newline characters, then `stop`. -/
def gapTest (pre stop : List Char) : List Char → Bool
  | [] => pre.isPrefixOf ([] : List Char) && gapMatch stop (([] : List Char).drop pre.length)
  | c :: rest =>
    (pre.isPrefixOf (c :: rest) && gapMatch stop ((c :: rest).drop pre.length)) ||
      gapTest pre stop rest

/-- The apostrophe character appearing in the two `Path '...'` patterns. -/
def quoteCh : Char := Char.ofNat 39

/-- The fixed expected-warning patterns `GitWarnings`, in source order, each as
its `RegExp.test` function. -/
def GitWarnings : List (String → Bool) :=
  [ fun s => substrTest ("Not a git repository").data s.data,
    fun s => substrTest ("is outside repository").data s.data,
    fun s => substrTest ("no such path").data s.data,
    fun s => substrTest ("does not have any commits").data s.data,
    fun s => gapTest (("Path ").data ++ [quoteCh]) ([quoteCh] ++ (" does not exist in").data) s.data,
    fun s => gapTest (("Path ").data ++ [quoteCh]) ([quoteCh] ++ (" exists on disk, but not in").data) s.data,
    fun s => substrTest ("no upstream configured for branch").data s.data ]

/-- Whether the failure message matches some entry of `GitWarnings`. -/
def gitWarningTest (msg : String) : Bool :=
  GitWarnings.any (fun w => w msg)

/-- Outcome of a git invocation as seen by the caller of `gitCommand`. -/
inductive GitResult where
  | ok (s : String)
  | err (msg : String)
deriving DecidableEq

/-- `gitCommandDefaultErrorHandler`: an empty message skips the pattern loop
and re-raises; a message matching some `GitWarnings` entry is logged and the
call resolves to the empty string; otherwise the original failure is re-raised. -/
def gitCommandDefaultErrorHandler (msg : String) : GitResult :=
  if msg = "" then GitResult.err msg
  else if gitWarningTest msg then GitResult.ok ""
  else GitResult.err msg

/-- `gitCommand`: with `willHandleErrors` set the core result (success or
failure) is returned to the caller untouched; otherwise failures are routed
through `gitCommandDefaultErrorHandler`. -/
def gitCommand (willHandleErrors : Bool) (core : GitResult) : GitResult :=
  if willHandleErrors then core
  else
    match core with
    | GitResult.ok s => GitResult.ok s
    | GitResult.err msg => gitCommandDefaultErrorHandler msg

/-- `defaultLogParams` from the source, format string included verbatim. -/
def defaultLogParams : List String :=
  ["log", "--name-status", "--full-history", "-M",
   "--format=%H -%nauthor %an%nauthor-date %at%nparents %P%nsummary %B%nfilename ?"]

/-- `defaultStashParams` from the source, format string included verbatim. -/
def defaultStashParams : List String :=
  ["stash", "list", "--name-status", "--full-history", "-M",
   "--format=%H -%nauthor-date %at%nreflog-selector %gd%nsummary %B%nfilename ?"]

/-- The format argument of a parameter list (its last element). -/
def formatOf (params : List String) : String :=
  (params.getLast?).getD ""

/-- Replace the first occurrence of `pat` by `rep`. -/
def replaceFirst (pat rep : List Char) : List Char → List Char
  | [] => []
  | c :: rest =>
    if pat.isPrefixOf (c :: rest) then rep ++ (c :: rest).drop pat.length
    else c :: replaceFirst pat rep rest

/-- Outcome of the front half of `Git.show`: either it throws before invoking
git, or it invokes git with the given revision-and-path argument. -/
inductive ShowOutcome where
  | threw (msg : String)
  | invoked (revisionArg : String)
deriving DecidableEq

/-- The sentinel handling and argument construction of `Git.show`: a
staged-uncommitted revision is first replaced by `:` (the index); any revision
that is then still uncommitted raises before git is invoked; otherwise git is
invoked with `rev:./file` (or `rev./file` when the revision already ends in a
colon). -/
def showCmd (repoPath : Option String) (fileName : String) (branchOrSha : String) :
    ShowOutcome :=
  let fr := Git.splitPath fileName repoPath true
  let file := fr.1
  let b := if Git.isStagedUncommitted branchOrSha then ":" else branchOrSha
  if Git.isUncommitted b then ShowOutcome.threw ("sha=" ++ b ++ " is uncommitted")
  else ShowOutcome.invoked
    (if Git.endsWithS b ":" then b ++ "./" ++ file else b ++ ":./" ++ file)

/-! ## Repository context tracker -/

/-- The `ContextState` record of `GitContextTracker`: `tracked` and `blameable`
start out `undefined` (modelled `none`), `dirty` starts `false`. -/
structure ContextState where
  dirty : Bool
  tracked : Option Bool
  blameable : Option Bool
deriving DecidableEq, Fintype

/-- The value `updateBlameability` stores: the explicit argument when one is
passed, otherwise the JavaScript expression `tracked && !dirty` (which is
`undefined` while `tracked` is `undefined`). -/
def computedBlameable (st : ContextState) (b : Option Bool) : Option Bool :=
  match b with
  | some v => some v
  | none =>
    match st.tracked with
    | none => none
    | some t => some (t && !st.dirty)

/-- `GitContextTracker.updateBlameability`: returns the updated state and the
payload of the fired blameability-change event, `none` when no event fires. -/
def updateBlameability (st : ContextState) (b : Option Bool) (force : Bool) :
    ContextState × Option (Option Bool) :=
  let v := computedBlameable st b
  if !force && st.blameable == v then (st, none)
  else ({ st with blameable := v }, some v)

/-- The external signals driving the tracker, restricted to those that pass the
guards for the currently active editor/document.  `editorChanged` carries the
dirty flag of the new document and the result of the tracked-state lookup (a
lookup failure is a `false` result), plus the `force` flag passed to
`updateContext`.  `repoChanged` carries the re-looked-up tracked state. -/
inductive TrackerEvent where
  | editorChanged (present : Bool) (isDirty : Bool) (tracked : Bool) (force : Bool)
  | repoChanged (tracked : Bool)
  | documentChanged (isDirty : Bool)
  | blameFailed
deriving DecidableEq, Fintype

/-- One transition of `GitContextTracker`: `updateContext` for editor and
repository changes, `onTextDocumentChanged` for dirty-state changes, and
`onBlameFailed` forcing `blameable = false`.  Returns the new state and the
payload of the blameability event, if one fired. -/
def step (st : ContextState) (e : TrackerEvent) : ContextState × Option (Option Bool) :=
  match e with
  | TrackerEvent.editorChanged present isDirty tracked force =>
    if present then
      updateBlameability { st with dirty := isDirty, tracked := some tracked } none force
    else
      updateBlameability
        { st with dirty := false, blameable := some false, tracked := some false } none force
  | TrackerEvent.repoChanged tracked =>
    updateBlameability { st with tracked := some tracked } none false
  | TrackerEvent.documentChanged isDirty =>
    if st.dirty == isDirty then (st, none)
    else updateBlameability { st with dirty := isDirty } none false
  | TrackerEvent.blameFailed =>
    updateBlameability st (some false) false

/-- The initial `_context.state`: `{ dirty: false }`. -/
def initialState : ContextState :=
  { dirty := false, tracked := none, blameable := none }

/-- Run the tracker over a sequence of events from the initial state. -/
def runTracker (es : List TrackerEvent) : ContextState :=
  es.foldl (fun st e => (step st e).1) initialState

/-- The published-state invariant, as a boolean: whenever `blameable` is
`true`, `tracked` is `true` and `dirty` is `false`. -/
def trackerInvB (st : ContextState) : Bool :=
  !(st.blameable == some true) || ((st.tracked == some true) && !st.dirty)

/-- A concrete invocation key: `git status` in `/tmp`. -/
def demoKey : String := commandKey ⟨"/tmp", none, none, none, false⟩ ["status"]

/-- The executor state after one call with `demoKey` started on an empty map. -/
def demoS1 : ExecState := (startCall ⟨[], 0, 0⟩ demoKey).1

/-- Concrete options: utf8 output, no environment override, no stdin. -/
def demoOpts1 : GitCommandOptions := ⟨"/repo", none, some "utf8", none, false⟩

/-- Concrete options with the same cwd but different encoding, environment
override and stdin stream. -/
def demoOpts2 : GitCommandOptions :=
  ⟨"/repo", some [("GIT_OPTIONAL_LOCKS", "0")], some "latin1", some "input", true⟩

/-! ## Helper lemmas -/

theorem Git.caretDigits_no_colon (l : List Char) (h : Git.caretDigits l = true) :
    (':' : Char) ∉ l := by
  cases l with
  | nil => simp
  | cons c ds =>
    simp [Git.caretDigits] at h
    obtain ⟨hc, hds⟩ := h
    intro hm
    rcases List.mem_cons.mp hm with h1 | h2
    · rw [hc] at h1
      exact absurd h1 (by decide)
    · exact absurd (hds _ h2) (by decide)

theorem Git.shaTail_stagedTail_false (l : List Char) (h1 : Git.shaTail l = true)
    (h2 : Git.stagedTail l = true) : False := by
  simp [Git.shaTail] at h1
  simp [Git.stagedTail] at h2
  obtain ⟨⟨hlen, hdrop⟩, -⟩ := h2
  rcases h1 with hc | ⟨⟨hlen2, hdrop2⟩, -⟩
  · have hmem : (':' : Char) ∈ l := by
      have : (':' : Char) ∈ l.drop (l.length - 1) := by
        rw [hdrop]; simp
      exact List.mem_of_mem_drop this
    exact Git.caretDigits_no_colon l hc hmem
  · have h3 : List.drop 1 (l.drop (l.length - 2)) = l.drop (l.length - 1) := by
      rw [List.drop_drop]
      congr 1
      omega
    rw [hdrop2, hdrop] at h3
    simp at h3

/-! ## C1: classification of commit ids -/

/-- C1 counterexample: the predicates are not pairwise mutually exclusive.  The
40-zero id satisfies both `isSha` and `isUncommitted`, and the staged sentinel
(40 zeros followed by a colon) satisfies both `isStagedUncommitted` and
`isUncommitted`. -/
theorem sha_predicates_overlap :
    (Git.isSha "0000000000000000000000000000000000000000" = true ∧
      Git.isUncommitted "0000000000000000000000000000000000000000" = true) ∧
    (Git.isStagedUncommitted "0000000000000000000000000000000000000000:" = true ∧
      Git.isUncommitted "0000000000000000000000000000000000000000:" = true) := by
  decide

/-- C1 (amended): the predicates overlap instead of being pairwise exclusive:
`isSha` and `isStagedUncommitted` are mutually exclusive, every string
satisfying `isStagedUncommitted` also satisfies `isUncommitted`, and every
input made of exactly 40 lowercase-hex characters followed by an optional
caret-and-digits marker satisfies at least one class (`isSha`); a unique class
is obtained only by testing the predicates in priority order. -/
theorem sha_classes_amended :
    (∀ s : String, Git.isSha s = true → Git.isStagedUncommitted s = false)
    ∧ (∀ s : String, Git.isStagedUncommitted s = true → Git.isUncommitted s = true)
    ∧ (∀ (h t : List Char), h.length = 40 → h.all Git.isHexLower = true →
        Git.caretDigits t = true → Git.isSha ⟨h ++ t⟩ = true) := by
  refine ⟨?_, ?_, ?_⟩
  · intro s hs
    by_contra hne
    have hst : Git.isStagedUncommitted s = true := by
      cases h : Git.isStagedUncommitted s
      · exact absurd h hne
      · rfl
    simp [Git.isSha] at hs
    simp [Git.isStagedUncommitted] at hst
    exact Git.shaTail_stagedTail_false _ hs.2 hst.2
  · intro s h
    simp [Git.isStagedUncommitted] at h
    simp [Git.isUncommitted, Git.uncommittedTail]
    exact ⟨h.1, Or.inr h.2⟩
  · intro h t hlen hhex hct
    simp [Git.isSha]
    refine ⟨⟨?_, ?_⟩, ?_⟩
    · simp [List.length_append, hlen]
    · intro c hc
      rw [List.take_left' hlen] at hc
      exact (List.all_eq_true.mp hhex) c hc
    · rw [List.drop_left' hlen]
      simp [Git.shaTail, hct]

/-- Witness for `sha_classes_amended` at concrete inputs. -/
theorem sha_classes_amended_witness :
    Git.isStagedUncommitted "0123456789abcdef0123456789abcdef01234567" = false
    ∧ Git.isUncommitted "0000000000000000000000000000000000000000:" = true
    ∧ Git.isSha ⟨("0123456789abcdef0123456789abcdef01234567").data ++ ("^2").data⟩ = true :=
  ⟨sha_classes_amended.1 _ (by decide),
   sha_classes_amended.2.1 _ (by decide),
   sha_classes_amended.2.2 _ _ (by decide) (by decide) (by decide)⟩

/-! ## C5: short form of a commit id -/

/-- C5: `shortenSha` returns "index" for every staged-uncommitted id, "" for
every id classified uncommitted (not staged), and otherwise the first 8
characters — except that when the id contains a `^` at an index greater than 6
the result is the first 6 characters with the whole suffix from the caret
onward preserved. -/
theorem shortenSha_spec : ∀ (sha : String),
    (Git.isStagedUncommitted sha = true → Git.shortenSha sha = "index")
    ∧ (Git.isStagedUncommitted sha = false → Git.isUncommitted sha = true →
        Git.shortenSha sha = "")
    ∧ (Git.isStagedUncommitted sha = false → Git.isUncommitted sha = false →
        ∀ i, sha.data.findIdx? (fun c => c == '^') = some i → 6 < i →
          Git.shortenSha sha = ⟨sha.data.take 6 ++ sha.data.drop i⟩)
    ∧ (Git.isStagedUncommitted sha = false → Git.isUncommitted sha = false →
        ∀ i, sha.data.findIdx? (fun c => c == '^') = some i → i ≤ 6 →
          Git.shortenSha sha = ⟨sha.data.take 8⟩)
    ∧ (Git.isStagedUncommitted sha = false → Git.isUncommitted sha = false →
        sha.data.findIdx? (fun c => c == '^') = none →
          Git.shortenSha sha = ⟨sha.data.take 8⟩) := by
  intro sha
  refine ⟨?_, ?_, ?_, ?_, ?_⟩
  · intro h
    simp [Git.shortenSha, h]
  · intro h1 h2
    simp [Git.shortenSha, h1, h2]
  · intro h1 h2 i hidx hgt
    simp [Git.shortenSha, h1, h2, hidx, hgt]
  · intro h1 h2 i hidx hle
    have hnot : ¬ (6 < i) := by omega
    simp [Git.shortenSha, h1, h2, hidx, hnot]
  · intro h1 h2 hidx
    simp [Git.shortenSha, h1, h2, hidx]

/-- Witness for `shortenSha_spec` at concrete inputs: the staged sentinel, the
uncommitted sentinel, and a 40-hex sha carrying a `^2` suffix. -/
theorem shortenSha_spec_witness :
    Git.shortenSha "0000000000000000000000000000000000000000:" = "index"
    ∧ Git.shortenSha "0000000000000000000000000000000000000000" = ""
    ∧ Git.shortenSha "0123456789abcdef0123456789abcdef01234567^2" =
        ⟨("0123456789abcdef0123456789abcdef01234567^2").data.take 6 ++
          ("0123456789abcdef0123456789abcdef01234567^2").data.drop 40⟩ :=
  ⟨(shortenSha_spec _).1 (by decide),
   (shortenSha_spec _).2.1 (by decide) (by decide),
   (shortenSha_spec _).2.2.1 (by decide) (by decide) 40 (by decide) (by decide)⟩

/-! ## C7: path splitting -/

/-- C7: the two example evaluations of `splitPath`, and the general rule that a
supplied non-empty root is stripped case-insensitively from the front of the
file name after both paths are normalized to forward slashes. -/
theorem splitPath_spec :
    Git.splitPath "/repo/src/a.ts" (some "/repo") true = ("src/a.ts", some "/repo")
    ∧ Git.splitPath "/a/b/c.ts" none true = ("c.ts", some "/a/b")
    ∧ ∀ (fileName rp : String), rp ≠ "" →
        Git.startsWithS (Git.lowerStr (Git.normalizePath fileName))
          (Git.lowerStr (Git.withSlash (Git.normalizePath rp))) = true →
        Git.splitPath fileName (some rp) true =
          (⟨(Git.normalizePath fileName).data.drop
              (Git.lowerStr (Git.withSlash (Git.normalizePath rp))).data.length⟩,
            some (Git.normalizePath rp)) := by
  refine ⟨by decide, by decide, ?_⟩
  intro fileName rp hne hpre
  simp [Git.splitPath, hne, hpre]

/-- Witness for `splitPath_spec` at a concrete input whose root differs from
the file name in case and separator style. -/
theorem splitPath_spec_witness :
    Git.splitPath "\\Repo\\X\\y.ts" (some "/repo") true =
      (⟨(Git.normalizePath "\\Repo\\X\\y.ts").data.drop
          (Git.lowerStr (Git.withSlash (Git.normalizePath "/repo"))).data.length⟩,
        some (Git.normalizePath "/repo")) :=
  splitPath_spec.2.2 "\\Repo\\X\\y.ts" "/repo" (by decide) (by decide)

/-! ## C4: error classification in the executor -/

/-- C4: with generic handling enabled (`willHandleErrors` unset), a failure
whose message matches one of the `GitWarnings` patterns resolves to the empty
string, and a failure matching none of them is re-raised unchanged. -/
theorem gitCommand_error_classification : ∀ (msg : String),
    (gitWarningTest msg = true →
      gitCommand false (GitResult.err msg) = GitResult.ok "")
    ∧ (gitWarningTest msg = false →
      gitCommand false (GitResult.err msg) = GitResult.err msg) := by
  intro msg
  constructor
  · intro h
    have hne : msg ≠ "" := by
      intro he
      rw [he] at h
      exact absurd h (by decide)
    simp [gitCommand, gitCommandDefaultErrorHandler, hne, h]
  · intro h
    simp [gitCommand, gitCommandDefaultErrorHandler, h]

/-- Witness for `gitCommand_error_classification`: one matching and one
non-matching failure message. -/
theorem gitCommand_error_classification_witness :
    gitCommand false (GitResult.err "fatal: Not a git repository") = GitResult.ok ""
    ∧ gitCommand false (GitResult.err "fatal: bad object HEAD")
        = GitResult.err "fatal: bad object HEAD" :=
  ⟨(gitCommand_error_classification _).1 (by decide),
   (gitCommand_error_classification _).2 (by decide)⟩

/-! ## C6: stash format string -/

/-- C6 counterexample: substituting `reflog-selector %gd` for `parents %P` in
the log format string does not give the stash format string (the stash format
additionally omits the `author %an` field, which the claim says is unchanged). -/
theorem stash_format_counterexample :
    (⟨replaceFirst ("parents %P").data ("reflog-selector %gd").data
        (formatOf defaultLogParams).data⟩ : String) ≠ formatOf defaultStashParams := by
  decide

/-- C6 (amended): the stash format string is the log format string with
`reflog-selector %gd` substituted for `parents %P` and the `author %an` field
removed; the remaining fields and labels are unchanged and in the same order. -/
theorem stash_format_amended :
    formatOf defaultStashParams =
      ⟨replaceFirst ("author %an%n").data []
        (replaceFirst ("parents %P").data ("reflog-selector %gd").data
          (formatOf defaultLogParams).data)⟩
    ∧ substrTest ("author %an").data (formatOf defaultStashParams).data = false
    ∧ substrTest ("author %an").data (formatOf defaultLogParams).data = true
    ∧ substrTest ("reflog-selector %gd").data (formatOf defaultStashParams).data = true
    ∧ substrTest ("author-date %at").data (formatOf defaultStashParams).data = true := by
  decide

/-! ## C2: single-flight map and completion -/

/-- C2: while `demoKey` is in flight a second identical call awaits the same
promise and spawns nothing; after a successful completion the key is gone and
an identical call spawns fresh; but after a failed completion the key is still
in the map (the `delete` follows the throwing `await` and never runs), so a
subsequent identical call awaits the stale rejected promise and spawns no
fresh process, contradicting the removal-on-failure part of the claim. -/
theorem pendingCommands_failure_leak :
    ((startCall demoS1 demoKey).1.spawnCount = 1 ∧ (startCall demoS1 demoKey).2 = 0)
    ∧ (lookupPending (resumeCall demoS1 demoKey true) demoKey = none
        ∧ (startCall (resumeCall demoS1 demoKey true) demoKey).1.spawnCount = 2)
    ∧ (lookupPending (resumeCall demoS1 demoKey false) demoKey = some 0
        ∧ (startCall (resumeCall demoS1 demoKey false) demoKey).1.spawnCount = 1) := by
  decide

/-! ## C10: the dedup key is a function of cwd and args only -/

/-- Restarting a call with a key that is already pending returns the same
promise and leaves the state unchanged. -/
theorem startCall_idem (st : ExecState) (k : String) :
    startCall (startCall st k).1 k = startCall st k := by
  cases hl : lookupPending st k with
  | some p => simp [startCall, hl]
  | none =>
    have h1 : (startCall st k).1 =
        { pending := (k, st.nextId) :: st.pending, nextId := st.nextId + 1,
          spawnCount := st.spawnCount + 1 } := by
      simp [startCall, hl]
    have h2 : lookupPending (startCall st k).1 k = some st.nextId := by
      rw [h1]
      simp [lookupPending, List.find?_cons]
    rw [startCall, h2]
    simp [startCall, hl]

/-- C10: the dedup key depends only on `cwd` and the argument list, so two
calls agreeing on those — whatever their encodings, environment overrides or
stdin streams — get the same key, and the second call started while the first
is in flight awaits the same promise and spawns no second process. -/
theorem commandKey_dedup_spec :
    ∀ (o1 o2 : GitCommandOptions) (args : List String) (st : ExecState),
    o1.cwd = o2.cwd →
    commandKey o1 args = commandKey o2 args
    ∧ (startCall (startCall st (commandKey o1 args)).1 (commandKey o2 args)).2
        = (startCall st (commandKey o1 args)).2
    ∧ (startCall (startCall st (commandKey o1 args)).1 (commandKey o2 args)).1
        = (startCall st (commandKey o1 args)).1 := by
  intro o1 o2 args st h
  have hk : commandKey o1 args = commandKey o2 args := by
    simp [commandKey, h]
  refine ⟨hk, ?_, ?_⟩
  · rw [← hk]
    exact congrArg Prod.snd (startCall_idem st (commandKey o1 args))
  · rw [← hk]
    exact congrArg Prod.fst (startCall_idem st (commandKey o1 args))

/-- Witness for `commandKey_dedup_spec` at options differing in encoding,
environment and stdin but sharing `cwd`. -/
theorem commandKey_dedup_spec_witness :
    commandKey demoOpts1 ["status"] = commandKey demoOpts2 ["status"]
    ∧ (startCall (startCall ⟨[], 0, 0⟩ (commandKey demoOpts1 ["status"])).1
          (commandKey demoOpts2 ["status"])).2
        = (startCall ⟨[], 0, 0⟩ (commandKey demoOpts1 ["status"])).2
    ∧ (startCall (startCall ⟨[], 0, 0⟩ (commandKey demoOpts1 ["status"])).1
          (commandKey demoOpts2 ["status"])).1
        = (startCall ⟨[], 0, 0⟩ (commandKey demoOpts1 ["status"])).1 :=
  commandKey_dedup_spec demoOpts1 demoOpts2 ["status"] ⟨[], 0, 0⟩ rfl

/-! ## C3: the tracker invariant -/

/-- Every single tracker transition preserves the published-state invariant. -/
theorem step_preserves_inv : ∀ (st : ContextState) (e : TrackerEvent),
    trackerInvB st = true → trackerInvB (step st e).1 = true := by
  decide

/-- A blame failure always leaves `blameable = false`, whatever the state. -/
theorem blameFailed_forces : ∀ st : ContextState,
    (step st TrackerEvent.blameFailed).1.blameable = some false := by
  decide

/-- Folding the tracker from any state satisfying the invariant stays in it. -/
theorem runTracker_inv_aux : ∀ (es : List TrackerEvent) (st : ContextState),
    trackerInvB st = true →
    trackerInvB (es.foldl (fun s e => (step s e).1) st) = true := by
  intro es
  induction es with
  | nil => intro st h; simpa using h
  | cons e rest ih =>
    intro st h
    simp only [List.foldl_cons]
    exact ih _ (step_preserves_inv st e h)

/-- C3: in every state reachable by any sequence of editor-changed,
document-changed, repository-changed and blame-failed events, a published
`blameable = true` implies `tracked = true` and `dirty = false` (so a
tracked-lookup failure, which yields `tracked = false`, can never leave the
state blameable-but-not-tracked), and a blame failure for the active file
forces `blameable = false`. -/
theorem tracker_blameable_invariant : ∀ (es : List TrackerEvent),
    ((runTracker es).blameable = some true →
      (runTracker es).tracked = some true ∧ (runTracker es).dirty = false)
    ∧ (runTracker (es ++ [TrackerEvent.blameFailed])).blameable = some false := by
  intro es
  constructor
  · intro hb
    have h : trackerInvB (runTracker es) = true :=
      runTracker_inv_aux es initialState (by decide)
    simp [trackerInvB, hb] at h
    exact h
  · have h : runTracker (es ++ [TrackerEvent.blameFailed])
        = (step (runTracker es) TrackerEvent.blameFailed).1 := by
      simp [runTracker, List.foldl_append]
    rw [h]
    exact blameFailed_forces _

/-- Witness for `tracker_blameable_invariant`: after opening a clean tracked
editor the state is blameable, and indeed tracked and not dirty. -/
theorem tracker_blameable_invariant_witness :
    (runTracker [TrackerEvent.editorChanged true false true true]).tracked = some true
    ∧ (runTracker [TrackerEvent.editorChanged true false true true]).dirty = false :=
  (tracker_blameable_invariant [TrackerEvent.editorChanged true false true true]).1
    (by decide)

/-! ## C8: event emission discipline of updateBlameability -/

/-- C8: `updateBlameability` fires no event and leaves the stored state record
unchanged when the newly computed blameable value equals the stored one and no
force flag is set; otherwise it stores the new value and emits exactly one
event carrying it. -/
theorem updateBlameability_spec : ∀ (st : ContextState) (b : Option Bool) (force : Bool),
    (force = false → st.blameable = computedBlameable st b →
      updateBlameability st b force = (st, none))
    ∧ ((force = true ∨ st.blameable ≠ computedBlameable st b) →
      updateBlameability st b force =
        ({ st with blameable := computedBlameable st b },
          some (computedBlameable st b))) := by
  decide

/-- Witness for `updateBlameability_spec`: recomputing an unchanged `true`
without force emits nothing and keeps the record. -/
theorem updateBlameability_spec_witness :
    updateBlameability ⟨false, some true, some true⟩ none false
      = (⟨false, some true, some true⟩, none) :=
  (updateBlameability_spec ⟨false, some true, some true⟩ none false).1 rfl (by decide)

/-! ## C9: sentinel handling in Git.show -/

/-- C9: a revision satisfying `isUncommitted` but not `isStagedUncommitted`
makes `Git.show` throw "sha=... is uncommitted" before git is invoked; a
staged-uncommitted revision is first replaced by `:` (the index) and then
executed normally, producing the `:./file` argument. -/
theorem show_sentinel_handling : ∀ (repoPath : Option String) (fileName sha : String),
    (Git.isUncommitted sha = true → Git.isStagedUncommitted sha = false →
      showCmd repoPath fileName sha
        = ShowOutcome.threw ("sha=" ++ sha ++ " is uncommitted"))
    ∧ (Git.isStagedUncommitted sha = true →
      showCmd repoPath fileName sha
        = ShowOutcome.invoked (":./" ++ (Git.splitPath fileName repoPath true).1)) := by
  intro rp fn sha
  constructor
  · intro hu hs
    simp [showCmd, hs, hu]
  · intro hs
    have h1 : Git.isUncommitted ":" = false := by decide
    have h2 : Git.endsWithS ":" ":" = true := by decide
    simp [showCmd, hs, h1, h2]

/-- Witness for `show_sentinel_handling`: the uncommitted sentinel throws, the
staged-uncommitted sentinel is executed against the index revision. -/
theorem show_sentinel_handling_witness :
    showCmd (some "/repo") "/repo/a.txt" "0000000000000000000000000000000000000000"
      = ShowOutcome.threw
          ("sha=" ++ "0000000000000000000000000000000000000000" ++ " is uncommitted")
    ∧ showCmd (some "/repo") "/repo/a.txt" "0000000000000000000000000000000000000000:"
      = ShowOutcome.invoked
          (":./" ++ (Git.splitPath "/repo/a.txt" (some "/repo") true).1) :=
  ⟨(show_sentinel_handling (some "/repo") "/repo/a.txt" _).1 (by decide) (by decide),
   (show_sentinel_handling (some "/repo") "/repo/a.txt" _).2 (by decide)⟩
